import Mathlib

/-!
# Togglekit feature-flag engine: a shallow embedding

This file embeds the evaluation engine of the `togglekit` repository
(`packages/flags-core-ts`: `rollout.ts`, `conditions.ts`, `evaluator.ts`)
in Lean 4 and proves the specification claims about it.

Modelling conventions (JavaScript semantics at the TypeScript type level):
* JS runtime values are the inductive `Value`.  Numbers are modelled as
  integers (`Int`): every numeric literal exercised by the spec and the
  repository's tests is integral, and no claim depends on fractional or
  non-finite doubles.  Consequently `parseFloat` is modelled on its
  integer fragment (sign and leading decimal digits; no digits ⇒ NaN ⇒
  `none`).
* Objects are finite association lists of own properties; the prototype
  chain is not modelled.  JS strict equality `===` on two objects or
  arrays is reference equality; embedded values are structural, so two
  separately constructed composites are modelled as never strictly equal.
* JS strings are Lean strings; `charCodeAt` enumerates UTF-16 code
  units, computed from the code points by `codeUnits` (surrogate pairs
  for code points above `0xFFFF`).
-/

set_option maxRecDepth 16384

namespace Togglekit

/-! ## rollout.ts -/

/-- Truncation to a 32-bit signed integer, as JS bitwise operators
(`<<`, `&`) apply to their operands (`ToInt32`). -/
def toInt32 (n : Int) : Int := (n + 2147483648) % 4294967296 - 2147483648

/-- UTF-16 code units of one character (surrogate pair above `0xFFFF`). -/
def codeUnitsOfChar (c : Char) : List Nat :=
  let n := c.toNat
  if n < 65536 then [n]
  else [55296 + (n - 65536) / 1024, 56320 + (n - 65536) % 1024]

/-- UTF-16 code units of a string, i.e. the values `charCodeAt` yields. -/
def codeUnits (s : String) : List Nat := (s.data.map codeUnitsOfChar).flatten

/-- One iteration of the loop in `simpleHash`:
`hash = ((hash << 5) - hash) + char; hash = hash & hash`.
`hash << 5` truncates `hash * 32` to int32; the subtraction and addition
are exact in doubles at these magnitudes; `hash & hash` truncates again. -/
def hashStep (hash : Int) (code : Nat) : Int :=
  toInt32 (toInt32 (hash * 32) - hash + code)

/-- `simpleHash(str)` from `rollout.ts` up to the absolute value:
the int32 rolling hash of the string's code units, starting from 0. -/
def simpleHashSigned (str : String) : Int := (codeUnits str).foldl hashStep 0

/-- `simpleHash(str)` from `rollout.ts`: `Math.abs` of the rolling hash. -/
def simpleHash (str : String) : Nat := (simpleHashSigned str).natAbs

/-- `computeRolloutBucket(userId, flagKey)` from `rollout.ts`:
hash `userId + ":" + flagKey` and reduce modulo 101. -/
def computeRolloutBucket (userId flagKey : String) : Nat :=
  simpleHash (userId ++ ":" ++ flagKey) % 101

/-- Reference algorithm as the spec words it: one step is `h*31 + charCode`
truncated to a 32-bit signed integer. -/
def specHashStep (h : Int) (c : Nat) : Int := toInt32 (h * 31 + c)

/-- Reference algorithm as the spec words it: concatenate
`userId ++ ":" ++ flagKey`, fold `specHashStep` from 0 over the
characters, take the absolute value, reduce modulo 101. -/
def specRolloutBucket (userId flagKey : String) : Nat :=
  ((codeUnits (userId ++ ":" ++ flagKey)).foldl specHashStep 0).natAbs % 101

theorem toInt32_eq_of_emod_eq {a b : Int}
    (h : a % 4294967296 = b % 4294967296) : toInt32 a = toInt32 b := by
  unfold toInt32
  omega

theorem toInt32_emod_self (a : Int) :
    toInt32 a % 4294967296 = a % 4294967296 := by
  unfold toInt32
  omega

theorem hashStep_eq_specHashStep (h : Int) (c : Nat) :
    hashStep h c = specHashStep h c := by
  unfold hashStep specHashStep
  apply toInt32_eq_of_emod_eq
  have h32 := toInt32_emod_self (h * 32)
  omega

theorem foldl_hashStep_eq_spec (l : List Nat) (h : Int) :
    l.foldl hashStep h = l.foldl specHashStep h := by
  induction l generalizing h with
  | nil => rfl
  | cons c t ih => simp only [List.foldl_cons, hashStep_eq_specHashStep, ih]

/-- C1: `computeRolloutBucket` agrees with the reference algorithm of the
spec (fold `h*31 + charCode` truncated to int32 over
`userId ++ ":" ++ flagKey` starting from 0, absolute value, mod 101) for
every pair of strings, and its result is always at most 100.  Determinism
and purity are inherent: it is a Lean function of exactly the two
strings. -/
theorem C1_computeRolloutBucket_correct (userId flagKey : String) :
    computeRolloutBucket userId flagKey = specRolloutBucket userId flagKey ∧
    computeRolloutBucket userId flagKey ≤ 100 := by
  constructor
  · unfold computeRolloutBucket specRolloutBucket simpleHash simpleHashSigned
    rw [foldl_hashStep_eq_spec]
  · exact Nat.le_of_lt_succ (Nat.mod_lt _ (by norm_num))

/-! ## JS runtime values -/

/-- A JavaScript runtime value (`unknown` in the TypeScript types).
Numbers are modelled as integers, objects as association lists of own
properties (see the header comment). -/
inductive Value where
  | undef
  | null
  | bool (b : Bool)
  | num (n : Int)
  | str (s : String)
  | arr (elems : List Value)
  | obj (fields : List (String × Value))
deriving Repr

/-- Own-property lookup on an object's field list (JS object keys are
unique; the first binding is the one the object holds). -/
def lookupField (fields : List (String × Value)) (key : String) : Option Value :=
  match fields with
  | [] => none
  | (k, v) :: rest => if k = key then some v else lookupField rest key

/-- JS `Boolean(v)` / truthiness.  (`NaN` is outside the integer model;
every other falsy value is covered.) -/
def jsTruthy : Value → Bool
  | .undef => false
  | .null => false
  | .bool b => b
  | .num n => n != 0
  | .str s => s ≠ ""
  | .arr _ => true
  | .obj _ => true

/-- JS `a === b`.  Strict equality is structural on primitives; on two
objects or arrays it is reference equality, modelled as `false` because
embedded composites are structural values with no identity. -/
def jsStrictEq : Value → Value → Bool
  | .undef, .undef => true
  | .null, .null => true
  | .bool a, .bool b => a == b
  | .num a, .num b => a == b
  | .str a, .str b => a == b
  | _, _ => false

/-- `v == null` in JS: `null` and `undefined` are the null-ish values. -/
def isNullish : Value → Bool
  | .undef => true
  | .null => true
  | _ => false

mutual

/-- JS `String(v)`.  Arrays join their elements with `,`, converting
`null` and `undefined` elements to the empty string; objects print as
`[object Object]`. -/
def jsToString : Value → String
  | .undef => "undefined"
  | .null => "null"
  | .bool true => "true"
  | .bool false => "false"
  | .num n => toString n
  | .str s => s
  | .arr xs => String.intercalate "," (jsToStringElems xs)
  | .obj _ => "[object Object]"

/-- Element conversion inside `Array.prototype.join`. -/
def jsToStringElems : List Value → List String
  | [] => []
  | .undef :: vs => "" :: jsToStringElems vs
  | .null :: vs => "" :: jsToStringElems vs
  | v :: vs => jsToString v :: jsToStringElems vs

end

/-! ## conditions.ts -/

/-- `areEqual(a, b)` from `conditions.ts`: strict equality first; if
either side is null-ish, loose `a == b`; otherwise compare the string
representations. -/
def areEqual (a b : Value) : Bool :=
  if jsStrictEq a b then true
  else if isNullish a || isNullish b then isNullish a && isNullish b
  else jsToString a == jsToString b

/-- The leading decimal digits of a character list. -/
def leadingDigits : List Char → List Char
  | [] => []
  | c :: cs => if c.isDigit then c :: leadingDigits cs else []

/-- JS `parseFloat`, on its integer fragment: skip leading whitespace,
read an optional sign and the leading run of decimal digits; no digits
means `NaN`, modelled as `none`. -/
def jsParseFloat (s : String) : Option Int :=
  let cs := s.data.dropWhile fun c => c = ' ' ∨ c = '\t' ∨ c = '\n' ∨ c = '\r'
  match cs with
  | '-' :: rest =>
      match leadingDigits rest with
      | [] => none
      | ds => some (-(ds.foldl (fun acc c => acc * 10 + (c.toNat - 48)) 0 : Nat))
  | '+' :: rest =>
      match leadingDigits rest with
      | [] => none
      | ds => some (ds.foldl (fun acc c => acc * 10 + (c.toNat - 48)) 0 : Nat)
  | _ =>
      match leadingDigits cs with
      | [] => none
      | ds => some (ds.foldl (fun acc c => acc * 10 + (c.toNat - 48)) 0 : Nat)

/-- `toNumber(value)` from `conditions.ts`: numbers pass through,
strings go through `parseFloat` (`NaN` ⇒ `null` ⇒ `none`), everything
else is `null`. -/
def toNumber : Value → Option Int
  | .num n => some n
  | .str s => jsParseFloat s
  | _ => none

/-- Does `needle` occur at the start of `haystack`? -/
def codeStartsWith : List Char → List Char → Bool
  | _, [] => true
  | [], _ :: _ => false
  | h :: hs, n :: ns => h == n && codeStartsWith hs ns

/-- JS `haystack.includes(needle)` on strings: substring containment. -/
def strIncludes (haystack needle : String) : Bool :=
  go haystack.data needle.data
where
  go : List Char → List Char → Bool
    | [], ns => ns.isEmpty
    | h :: t, ns => codeStartsWith (h :: t) ns || go t ns

/-- `contains(haystack, needle)` from `conditions.ts`: substring when
both are strings, `some areEqual` when the haystack is an array,
otherwise false. -/
def contains (haystack needle : Value) : Bool :=
  match haystack, needle with
  | .str h, .str n => strIncludes h n
  | .str _, _ => false
  | .arr items, n => items.any fun item => areEqual item n
  | _, _ => false

/-- JS `part in value` for the nested walk in `getAttributeValue`,
restricted as the source restricts it to truthy objects: own property on
an object; index key or `length` on an array; false on every other
value (which is exactly when the walk's
`value && typeof value === 'object' && part in value` test fails). -/
def jsHasPart : Value → String → Bool
  | .obj fields, part => (lookupField fields part).isSome
  | .arr xs, part =>
      part == "length" || (List.range xs.length).any fun i => toString i == part
  | _, _ => false

/-- JS `value[part]` on the values `jsHasPart` accepts. -/
def jsGetPart : Value → String → Value
  | .obj fields, part => (lookupField fields part).getD .undef
  | .arr xs, part =>
      if part == "length" then .num xs.length
      else
        match (List.range xs.length).find? (fun i => toString i == part) with
        | some i => xs.getD i .undef
        | none => .undef
  | _, _ => (Value.undef : Value)

/-- The `for (const part of parts)` walk in `getAttributeValue`: follow
each segment while the current value is a truthy object holding it,
returning `undefined` at the first failure. -/
def walkPath : Value → List String → Value
  | v, [] => v
  | v, p :: ps =>
      if jsHasPart v p then walkPath (jsGetPart v p) ps else (Value.undef : Value)

/-- The evaluation context: optional user id and the attribute map. -/
structure Context where
  userId : Option String
  attributes : List (String × Value)
deriving Repr

/-- A condition.  `attr` embeds the source's `attribute` field (a Lean
keyword); the operator is the string the `switch` scrutinises, so that
unknown operators are representable; `value` may be `undef`. -/
structure Condition where
  attr : String
  operator : String
  value : Value
deriving Repr

/-- JS `attribute.split('.')`: split a string at every `'.'` character
(the separator is a plain one-character string, so `String.split` on
chars is exact).  Implemented structurally over the character list so
that concrete instances reduce. -/
def splitOnDot (s : String) : List String :=
  go s.data []
where
  go : List Char → List Char → List String
    | [], acc => [String.mk acc.reverse]
    | c :: cs, acc =>
        if c = '.' then String.mk acc.reverse :: go cs []
        else go cs (c :: acc)

/-- `getAttributeValue(context, attribute)` from `conditions.ts`: the
whole path as a literal key first, then the dot-separated walk from the
attributes object. -/
def getAttributeValue (context : Context) (attr : String) : Value :=
  match lookupField context.attributes attr with
  | some v => v
  | none => walkPath (.obj context.attributes) (splitOnDot attr)

/-- The `gt`/`gte`/`lt`/`lte` blocks of `evaluateCondition`: coerce both
sides with `toNumber`; any `null` (`none`) means no match. -/
def numericCompare (cmp : Int → Int → Bool) (actualValue value : Value) : Bool :=
  match toNumber actualValue, toNumber value with
  | some numActual, some numValue => cmp numActual numValue
  | _, _ => false

/-- `evaluateCondition(condition, context)` from `conditions.ts`.  The
`switch` over the operator is embedded as the sequential equality chain
it denotes, with the fall-through `default` case returning `false`. -/
def evaluateCondition (condition : Condition) (context : Context) : Bool :=
  let actualValue := getAttributeValue context condition.attr
  if actualValue matches .undef then
    if condition.operator = "neq" then !(condition.value matches .undef)
    else false
  else if condition.operator = "eq" then areEqual actualValue condition.value
  else if condition.operator = "neq" then !areEqual actualValue condition.value
  else if condition.operator = "in" then
    match condition.value with
    | .arr vs => vs.any fun v => areEqual actualValue v
    | _ => false
  else if condition.operator = "gt" then numericCompare (· > ·) actualValue condition.value
  else if condition.operator = "gte" then numericCompare (· ≥ ·) actualValue condition.value
  else if condition.operator = "lt" then numericCompare (· < ·) actualValue condition.value
  else if condition.operator = "lte" then numericCompare (· ≤ ·) actualValue condition.value
  else if condition.operator = "contains" then contains actualValue condition.value
  else false

/-- `evaluateConditions(conditions, context)` from `conditions.ts`:
vacuously true on the empty list, AND of the members otherwise. -/
def evaluateConditions (conditions : List Condition) (context : Context) : Bool :=
  conditions.all fun condition => evaluateCondition condition context

/-! ## evaluator.ts -/

/-- A targeting rule.  `conditions` is optional in the evaluator
(`rule.conditions || []`); `value` may be any JS value including
`undefined` (the code tests `rule.value !== undefined`), so it is a
`Value` with `undef` for absence; `variant` and `percentage` are the
optional fields of the TypeScript type. -/
structure Rule where
  conditions : Option (List Condition)
  percentage : Option Int
  value : Value
  variant : Option String
deriving Repr

/-- A flag definition.  `variants` and `description` are informational
and never read by the evaluator, so they are not modelled. -/
structure Flag where
  key : String
  defaultValue : Value
  rules : Option (List Rule)
deriving Repr

/-- `FlagConfig`: the flag-key → flag map, as an association list of own
properties. -/
def FlagConfig := List (String × Flag)

/-- `this.config[flagKey]`, `undefined` (`none`) when the key is absent. -/
def lookupFlag (config : FlagConfig) (flagKey : String) : Option Flag :=
  match config with
  | [] => none
  | (k, f) :: rest => if k = flagKey then some f else lookupFlag rest flagKey

/-- The `EvaluationReason` union from `types.ts`. -/
inductive EvaluationReason where
  | default
  | rule_match
  | rollout
  | rollout_excluded
  | flag_not_found
  | error
deriving Repr, DecidableEq

/-- The optional `metadata` record of an `EvaluationResult`. -/
structure Metadata where
  ruleIndex : Option Nat
  bucket : Option Nat
  error : Option String
deriving Repr, DecidableEq

/-- `EvaluationResult<T>` from `types.ts`. -/
structure EvaluationResult (T : Type) where
  value : T
  reason : EvaluationReason
  metadata : Option Metadata
deriving Repr, DecidableEq

/-- The record `evaluateRule` returns:
`{ matched, reason, bucket? }`. -/
structure RuleMatchResult where
  matched : Bool
  reason : EvaluationReason
  bucket : Option Nat
deriving Repr, DecidableEq

/-- `Evaluator.evaluateRule(rule, context, flagKey)`: conditions first;
then, when a percentage below 100 is present, the rollout check guarded
by the truthiness of `context.userId` (so a missing or empty user id is
excluded). -/
def evaluateRule (rule : Rule) (context : Context) (flagKey : String) :
    RuleMatchResult :=
  let conditionsMatch := evaluateConditions (rule.conditions.getD []) context
  if !conditionsMatch then ⟨false, .rollout_excluded, none⟩
  else
    match rule.percentage with
    | some percentage =>
        if percentage < 100 then
          match context.userId with
          | none => ⟨false, .rollout_excluded, none⟩
          | some userId =>
              if userId = "" then ⟨false, .rollout_excluded, none⟩
              else
                let bucket := computeRolloutBucket userId flagKey
                if (bucket : Int) ≤ percentage then ⟨true, .rollout, some bucket⟩
                else ⟨false, .rollout_excluded, some bucket⟩
        else ⟨true, .rule_match, none⟩
    | none => ⟨true, .rule_match, none⟩

/-- The `for (let i = 0; ...)` loop shared by `evalBool` and
`evalVariant`: the first rule whose `evaluateRule` result is `matched`,
with its index and that result; `none` when no rule matches. -/
def findFirstMatch (rules : List Rule) (context : Context) (flagKey : String) :
    Option (Nat × Rule × RuleMatchResult) :=
  match rules with
  | [] => none
  | rule :: rest =>
      let ruleResult := evaluateRule rule context flagKey
      if ruleResult.matched then some (0, rule, ruleResult)
      else (findFirstMatch rest context flagKey).map fun (i, r, rr) => (i + 1, r, rr)

/-- `Evaluator.evalBool(flagKey, context)`. -/
def evalBool (config : FlagConfig) (flagKey : String) (context : Context) :
    EvaluationResult Bool :=
  match lookupFlag config flagKey with
  | none =>
      ⟨false, .flag_not_found,
        some ⟨none, none,
          some ("Flag \"" ++ flagKey ++ "\" not found in configuration")⟩⟩
  | some flag =>
      match findFirstMatch (flag.rules.getD []) context flagKey with
      | some (i, rule, ruleResult) =>
          let value := if rule.value matches .undef then Value.bool true else rule.value
          ⟨jsTruthy value, ruleResult.reason,
            some ⟨some i, ruleResult.bucket, none⟩⟩
      | none => ⟨jsTruthy flag.defaultValue, .default, none⟩

/-- `rule.variant || String(flag.defaultValue)`: the variant when it is
a truthy (non-empty) string, otherwise the stringified default. -/
def variantOrDefault (rule : Rule) (flag : Flag) : String :=
  match rule.variant with
  | some v => if v = "" then jsToString flag.defaultValue else v
  | none => jsToString flag.defaultValue

/-- `Evaluator.evalVariant(flagKey, context)`. -/
def evalVariant (config : FlagConfig) (flagKey : String) (context : Context) :
    EvaluationResult String :=
  match lookupFlag config flagKey with
  | none =>
      ⟨"default", .flag_not_found,
        some ⟨none, none,
          some ("Flag \"" ++ flagKey ++ "\" not found in configuration")⟩⟩
  | some flag =>
      match findFirstMatch (flag.rules.getD []) context flagKey with
      | some (i, rule, ruleResult) =>
          ⟨variantOrDefault rule flag, ruleResult.reason,
            some ⟨some i, ruleResult.bucket, none⟩⟩
      | none => ⟨jsToString flag.defaultValue, .default, none⟩

/-! ## Structural lemmas on the rule loop -/

/-- The `metadata.ruleIndex` a result carries, if any. -/
def ruleIndexOf {T : Type} (result : EvaluationResult T) : Option Nat :=
  result.metadata.bind Metadata.ruleIndex

theorem findFirstMatch_cons_of_matched {r : Rule} {context : Context} {flagKey : String}
    (rest : List Rule) (hm : (evaluateRule r context flagKey).matched = true) :
    findFirstMatch (r :: rest) context flagKey =
      some (0, r, evaluateRule r context flagKey) := by
  simp [findFirstMatch, hm]

theorem findFirstMatch_cons_of_not_matched {r : Rule} {context : Context} {flagKey : String}
    (rest : List Rule) (hm : (evaluateRule r context flagKey).matched = false) :
    findFirstMatch (r :: rest) context flagKey =
      (findFirstMatch rest context flagKey).map fun (i, r', rr) => (i + 1, r', rr) := by
  simp [findFirstMatch, hm]

/-- A match in a prefix settles the loop: appending further rules never
changes the outcome (rules past the match are not consulted). -/
theorem findFirstMatch_append_some (r₁ r₂ : List Rule) (context : Context)
    (flagKey : String) (x : Nat × Rule × RuleMatchResult)
    (h : findFirstMatch r₁ context flagKey = some x) :
    findFirstMatch (r₁ ++ r₂) context flagKey = some x := by
  induction r₁ generalizing x with
  | nil => simp [findFirstMatch] at h
  | cons r rest ih =>
    rw [List.cons_append]
    by_cases hm : (evaluateRule r context flagKey).matched = true
    · rw [findFirstMatch_cons_of_matched rest hm] at h
      rw [findFirstMatch_cons_of_matched (rest ++ r₂) hm]
      exact h
    · rw [Bool.not_eq_true] at hm
      rw [findFirstMatch_cons_of_not_matched rest hm] at h
      rw [findFirstMatch_cons_of_not_matched (rest ++ r₂) hm]
      obtain ⟨y, hy, hxy⟩ := Option.map_eq_some'.mp h
      rw [ih y hy, Option.map_some', hxy]

/-- The loop's outcome only depends on the rules up to the match: taking
any prefix past the matched index yields the same outcome. -/
theorem findFirstMatch_take_of_some (rules : List Rule) (context : Context)
    (flagKey : String) :
    ∀ (x : Nat × Rule × RuleMatchResult) (n : Nat),
      findFirstMatch rules context flagKey = some x → x.1 < n →
      findFirstMatch (rules.take n) context flagKey = some x := by
  induction rules with
  | nil =>
    intro x n h
    simp [findFirstMatch] at h
  | cons r rest ih =>
    intro x n h hn
    cases n with
    | zero => omega
    | succ n' =>
      rw [List.take_succ_cons]
      by_cases hm : (evaluateRule r context flagKey).matched = true
      · rw [findFirstMatch_cons_of_matched rest hm] at h
        rw [findFirstMatch_cons_of_matched (rest.take n') hm]
        exact h
      · rw [Bool.not_eq_true] at hm
        rw [findFirstMatch_cons_of_not_matched rest hm] at h
        rw [findFirstMatch_cons_of_not_matched (rest.take n') hm]
        obtain ⟨⟨yi, yr, yrr⟩, hy, hxy⟩ := Option.map_eq_some'.mp h
        have hyn : yi < n' := by
          have : x.1 = yi + 1 := by rw [← hxy]
          omega
        rw [ih (yi, yr, yrr) n' hy hyn, Option.map_some', hxy]

/-- When all rules before index `i` fail and rule `i` matches, the loop
finds exactly rule `i`. -/
theorem findFirstMatch_of_first (rules : List Rule) (context : Context)
    (flagKey : String) :
    ∀ (i : Nat) (hi : i < rules.length),
      (evaluateRule (rules.get ⟨i, hi⟩) context flagKey).matched = true →
      (∀ (j : Nat) (hj : j < rules.length), j < i →
        (evaluateRule (rules.get ⟨j, hj⟩) context flagKey).matched = false) →
      findFirstMatch rules context flagKey =
        some (i, rules.get ⟨i, hi⟩, evaluateRule (rules.get ⟨i, hi⟩) context flagKey) := by
  induction rules with
  | nil =>
    intro i hi
    simp at hi
  | cons r rest ih =>
    intro i hi hmatch hmin
    cases i with
    | zero =>
      exact findFirstMatch_cons_of_matched rest hmatch
    | succ i' =>
      have h0 : (evaluateRule r context flagKey).matched = false :=
        hmin 0 (by simp) (Nat.succ_pos i')
      rw [findFirstMatch_cons_of_not_matched rest h0]
      have hi' : i' < rest.length := by simpa using hi
      have hmatch' : (evaluateRule (rest.get ⟨i', hi'⟩) context flagKey).matched = true :=
        hmatch
      have hmin' : ∀ (j : Nat) (hj : j < rest.length), j < i' →
          (evaluateRule (rest.get ⟨j, hj⟩) context flagKey).matched = false := by
        intro j hj hji
        exact hmin (j + 1) (by simpa using Nat.succ_lt_succ hj) (Nat.succ_lt_succ hji)
      rw [ih i' hi' hmatch' hmin']
      rfl

/-- What the loop returns is the evaluation of the returned rule, and it
is a match. -/
theorem findFirstMatch_matched (rules : List Rule) (context : Context)
    (flagKey : String) :
    ∀ (i : Nat) (rule : Rule) (rr : RuleMatchResult),
      findFirstMatch rules context flagKey = some (i, rule, rr) →
      evaluateRule rule context flagKey = rr ∧ rr.matched = true := by
  induction rules with
  | nil =>
    intro i rule rr h
    simp [findFirstMatch] at h
  | cons r rest ih =>
    intro i rule rr h
    by_cases hm : (evaluateRule r context flagKey).matched = true
    · rw [findFirstMatch_cons_of_matched rest hm] at h
      obtain ⟨h1, h2, h3⟩ : 0 = i ∧ r = rule ∧ evaluateRule r context flagKey = rr := by
        simpa using h
      subst h2
      subst h3
      exact ⟨rfl, hm⟩
    · rw [Bool.not_eq_true] at hm
      rw [findFirstMatch_cons_of_not_matched rest hm] at h
      obtain ⟨⟨yi, yr, yrr⟩, hy, hxy⟩ := Option.map_eq_some'.mp h
      obtain ⟨h1, h2, h3⟩ : yi + 1 = i ∧ yr = rule ∧ yrr = rr := by
        simpa using hxy
      subst h2
      subst h3
      exact ih yi yr yrr hy

/-- A matched rule evaluation carries reason `rollout` or `rule_match`. -/
theorem evaluateRule_matched_reason (rule : Rule) (context : Context)
    (flagKey : String)
    (h : (evaluateRule rule context flagKey).matched = true) :
    (evaluateRule rule context flagKey).reason = .rollout ∨
    (evaluateRule rule context flagKey).reason = .rule_match := by
  revert h
  unfold evaluateRule
  dsimp only
  repeat' split
  all_goals intro h
  all_goals simp_all

/-- `evalBool` when the flag exists and the loop finds a match. -/
theorem evalBool_eq_of_findFirstMatch (config : FlagConfig) (flagKey : String)
    (context : Context) (flag : Flag) (i : Nat) (rule : Rule) (rr : RuleMatchResult)
    (hflag : lookupFlag config flagKey = some flag)
    (hfind : findFirstMatch (flag.rules.getD []) context flagKey = some (i, rule, rr)) :
    evalBool config flagKey context =
      ⟨jsTruthy (if rule.value matches .undef then Value.bool true else rule.value),
        rr.reason, some ⟨some i, rr.bucket, none⟩⟩ := by
  simp [evalBool, hflag, hfind]

/-- `evalBool` when the flag exists and no rule matches. -/
theorem evalBool_default_of_no_match (config : FlagConfig) (flagKey : String)
    (context : Context) (flag : Flag)
    (hflag : lookupFlag config flagKey = some flag)
    (hfind : findFirstMatch (flag.rules.getD []) context flagKey = none) :
    evalBool config flagKey context = ⟨jsTruthy flag.defaultValue, .default, none⟩ := by
  simp [evalBool, hflag, hfind]

/-- `evalVariant` when the flag exists and the loop finds a match. -/
theorem evalVariant_eq_of_findFirstMatch (config : FlagConfig) (flagKey : String)
    (context : Context) (flag : Flag) (i : Nat) (rule : Rule) (rr : RuleMatchResult)
    (hflag : lookupFlag config flagKey = some flag)
    (hfind : findFirstMatch (flag.rules.getD []) context flagKey = some (i, rule, rr)) :
    evalVariant config flagKey context =
      ⟨variantOrDefault rule flag, rr.reason, some ⟨some i, rr.bucket, none⟩⟩ := by
  simp [evalVariant, hflag, hfind]

/-- `evalVariant` when the flag exists and no rule matches. -/
theorem evalVariant_default_of_no_match (config : FlagConfig) (flagKey : String)
    (context : Context) (flag : Flag)
    (hflag : lookupFlag config flagKey = some flag)
    (hfind : findFirstMatch (flag.rules.getD []) context flagKey = none) :
    evalVariant config flagKey context =
      ⟨jsToString flag.defaultValue, .default, none⟩ := by
  simp [evalVariant, hflag, hfind]

/-! ## Claim theorems -/

/-- C2 counterexample: the claim as stated is false on the code.  With
`percentage = 99`, a context whose `userId` is *present* but equal to
`""`, and all conditions matching (none), the claim's clause (b) demands
a match exactly when `bucket ≤ 99`; the bucket here is 58 ≤ 99, yet the
rule does not match, because `evaluateRule` tests the truthiness of
`context.userId` and the empty string is falsy. -/
theorem C2_counterexample :
    evaluateConditions ((Rule.mk none (some 99) .undef none).conditions.getD [])
        ⟨some "", []⟩ = true ∧
    (Rule.mk none (some 99) .undef none).percentage = some 99 ∧
    (99 : Int) < 100 ∧
    (Context.mk (some "") []).userId = some "" ∧
    (computeRolloutBucket "" "" : Int) ≤ 99 ∧
    (evaluateRule ⟨none, some 99, .undef, none⟩ ⟨some "", []⟩ "").matched = false := by
  decide

/-- C2 (amended): for a rule whose conditions all match, with a defined
percentage strictly below 100: (a) when `context.userId` is absent *or
empty* the rule does not match (no bucket recorded); (b) when
`context.userId` is present *and non-empty* the rule matches iff
`bucket(userId, flagKey) ≤ percentage`, recording reason `rollout` and
the bucket on match; and with an undefined percentage or one ≥ 100 the
rule matches unconditionally with reason `rule_match` and no bucket. -/
theorem C2_evaluateRule_rollout (rule : Rule) (context : Context) (flagKey : String)
    (hcond : evaluateConditions (rule.conditions.getD []) context = true) :
    (∀ percentage : Int, rule.percentage = some percentage → percentage < 100 →
      ((context.userId = none ∨ context.userId = some "") →
        evaluateRule rule context flagKey = ⟨false, .rollout_excluded, none⟩) ∧
      (∀ userId, context.userId = some userId → userId ≠ "" →
        ((computeRolloutBucket userId flagKey : Int) ≤ percentage →
          evaluateRule rule context flagKey =
            ⟨true, .rollout, some (computeRolloutBucket userId flagKey)⟩) ∧
        (percentage < (computeRolloutBucket userId flagKey : Int) →
          evaluateRule rule context flagKey =
            ⟨false, .rollout_excluded, some (computeRolloutBucket userId flagKey)⟩))) ∧
    ((rule.percentage = none ∨
        ∃ percentage : Int, rule.percentage = some percentage ∧ 100 ≤ percentage) →
      evaluateRule rule context flagKey = ⟨true, .rule_match, none⟩) := by
  unfold evaluateRule
  rw [hcond]
  constructor
  · intro percentage hp hlt
    rw [hp]
    constructor
    · rintro (h | h) <;> rw [h] <;> simp [hlt]
    · intro userId huid hne
      rw [huid]
      constructor
      · intro hle
        simp [hlt, hne, hle]
      · intro hgt
        simp [hlt, hne, not_le.mpr hgt]
  · rintro (h | ⟨percentage, hp, hge⟩)
    · simp [h]
    · simp [hp, not_lt.mpr hge]

/-- Closed witness for C2: `user-123` hashes to bucket 51 for
`test-flag`, which a 50 % rollout excludes. -/
theorem C2_witness :
    evaluateRule ⟨none, some 50, .undef, none⟩ ⟨some "user-123", []⟩ "test-flag" =
      ⟨false, .rollout_excluded, some (computeRolloutBucket "user-123" "test-flag")⟩ :=
  (((C2_evaluateRule_rollout ⟨none, some 50, .undef, none⟩ ⟨some "user-123", []⟩
      "test-flag" rfl).1 50 rfl (by norm_num)).2 "user-123" rfl
      (by decide)).2 (by decide)

/-- C4: an absent flag key makes `evalBool` return `false` with reason
`flag_not_found` and an error message naming the key, and `evalVariant`
return the literal string `"default"` with the same reason and message;
both results are produced without consulting any rule (the functions
return before the rule loop). -/
theorem C4_flag_not_found (config : FlagConfig) (flagKey : String) (context : Context)
    (h : lookupFlag config flagKey = none) :
    evalBool config flagKey context =
      ⟨false, .flag_not_found,
        some ⟨none, none,
          some ("Flag \"" ++ flagKey ++ "\" not found in configuration")⟩⟩ ∧
    evalVariant config flagKey context =
      ⟨"default", .flag_not_found,
        some ⟨none, none,
          some ("Flag \"" ++ flagKey ++ "\" not found in configuration")⟩⟩ := by
  unfold evalBool evalVariant
  rw [h]
  exact ⟨rfl, rfl⟩

/-- Closed witness for C4 at the empty configuration. -/
theorem C4_witness :
    evalBool [] "missing-key" ⟨none, []⟩ =
      ⟨false, .flag_not_found,
        some ⟨none, none,
          some ("Flag \"" ++ "missing-key" ++ "\" not found in configuration")⟩⟩ ∧
    evalVariant [] "missing-key" ⟨none, []⟩ =
      ⟨"default", .flag_not_found,
        some ⟨none, none,
          some ("Flag \"" ++ "missing-key" ++ "\" not found in configuration")⟩⟩ :=
  C4_flag_not_found [] "missing-key" ⟨none, []⟩ rfl

/-- C5: when the condition's attribute resolves to "not found"
(`undefined`), the condition matches exactly when the operator is `neq`
and the comparison value is defined; every other operator — including
any unknown operator string — fails to match. -/
theorem C5_missing_attribute (condition : Condition) (context : Context)
    (h : getAttributeValue context condition.attr = .undef) :
    evaluateCondition condition context =
      (condition.operator == "neq" && !(condition.value matches .undef)) := by
  unfold evaluateCondition
  rw [h]
  by_cases hop : condition.operator = "neq"
  · simp [hop]
  · simp [hop]

/-- Closed witness for C5: a `neq` condition on a missing attribute with
a defined comparison value matches. -/
theorem C5_witness :
    evaluateCondition ⟨"missing", "neq", .str "test"⟩ ⟨none, []⟩ =
      ("neq" == "neq" && !(Value.str "test" matches Value.undef)) :=
  C5_missing_attribute ⟨"missing", "neq", .str "test"⟩ ⟨none, []⟩ rfl

/-- C6: the equality used by the `eq` and `neq` operators is the
three-tier comparison: strictly identical values are equal; otherwise,
when either side is null-ish, equality holds exactly when both sides
are null-ish (loose null equality); otherwise the two string
representations are compared — in particular `25` equals `"25"` in both
directions; and on a defined attribute value `eq` evaluates to exactly
`areEqual` and `neq` to exactly its negation. -/
theorem C6_loose_equality (a b : Value) (condition : Condition) (context : Context) :
    (jsStrictEq a b = true → areEqual a b = true) ∧
    (jsStrictEq a b = false → (isNullish a || isNullish b) = true →
      areEqual a b = (isNullish a && isNullish b)) ∧
    (jsStrictEq a b = false → (isNullish a || isNullish b) = false →
      areEqual a b = (jsToString a == jsToString b)) ∧
    areEqual (.num 25) (.str "25") = true ∧
    areEqual (.str "25") (.num 25) = true ∧
    ((getAttributeValue context condition.attr matches .undef) = false →
      condition.operator = "eq" →
      evaluateCondition condition context =
        areEqual (getAttributeValue context condition.attr) condition.value) ∧
    ((getAttributeValue context condition.attr matches .undef) = false →
      condition.operator = "neq" →
      evaluateCondition condition context =
        !areEqual (getAttributeValue context condition.attr) condition.value) := by
  refine ⟨?_, ?_, ?_, by decide, by decide, ?_, ?_⟩
  · intro h
    simp [areEqual, h]
  · intro h1 h2
    simp [areEqual, h1, h2]
  · intro h1 h2
    simp [areEqual, h1, h2]
  · intro hund hop
    simp [evaluateCondition, hund, hop]
  · intro hund hop
    simp [evaluateCondition, hund, hop]

/-- Closed witness for C6: an `eq` condition with comparison value `25`
against the attribute value `"25"`. -/
theorem C6_witness :
    evaluateCondition ⟨"age", "eq", .num 25⟩ ⟨none, [("age", .str "25")]⟩ =
      areEqual (getAttributeValue ⟨none, [("age", .str "25")]⟩ "age") (.num 25) ∧
    areEqual (.num 25) (.str "25") = true := by
  have h := C6_loose_equality (.num 25) (.str "25") ⟨"age", "eq", .num 25⟩
    ⟨none, [("age", .str "25")]⟩
  exact ⟨h.2.2.2.2.2.1 (by decide) rfl, h.2.2.2.1⟩

/-- C7: attribute resolution tries the full path as a single literal
key in the attribute map first (a key literally named `"user.plan"`
takes precedence); only when that key is absent is the path split on
`.` and walked one segment at a time from the attributes object; the
walk yields "not found" (`undefined`) as soon as the current value
lacks the next segment — in particular whenever it is not a mapping,
i.e. fails the code's `typeof value === 'object'` test (which JS
arrays, being objects with index keys, satisfy). -/
theorem C7_attribute_resolution (context : Context) (attr : String) :
    (∀ v, lookupField context.attributes attr = some v →
      getAttributeValue context attr = v) ∧
    (lookupField context.attributes attr = none →
      getAttributeValue context attr =
        walkPath (.obj context.attributes) (splitOnDot attr)) ∧
    (∀ (v : Value) (p : String) (ps : List String), jsHasPart v p = false →
      walkPath v (p :: ps) = .undef) ∧
    (∀ (v : Value) (p : String),
      (v matches .obj _) = false → (v matches .arr _) = false →
      jsHasPart v p = false) := by
  refine ⟨?_, ?_, ?_, ?_⟩
  · intro v h
    unfold getAttributeValue
    rw [h]
  · intro h
    unfold getAttributeValue
    rw [h]
  · intro v p ps h
    unfold walkPath
    simp [h]
  · intro v p h1 h2
    cases v <;> simp_all [jsHasPart]

/-- Closed witness for C7: a literal `"user.plan"` key shadows the
nested `user.plan` path. -/
theorem C7_witness :
    getAttributeValue
      ⟨none, [("user.plan", .str "direct"), ("user", .obj [("plan", .str "nested")])]⟩
      "user.plan" = .str "direct" :=
  (C7_attribute_resolution
    ⟨none, [("user.plan", .str "direct"), ("user", .obj [("plan", .str "nested")])]⟩
    "user.plan").1 (.str "direct") rfl

/-- C3: rules are evaluated in declaration order and the first matching
rule wins: when rule `i` matches and every rule before it does not,
both `evalBool` and `evalVariant` report `metadata.ruleIndex = i` — the
smallest index of any matching rule — and the loop's outcome is already
fixed by the first `i + 1` rules, so rules at higher indices are never
consulted; a rule that fails its conditions or its rollout check merely
falls through (hypothesis `hmin`) and is never retried or combined. -/
theorem C3_first_match_wins (config : FlagConfig) (flagKey : String)
    (context : Context) (flag : Flag) (rules : List Rule)
    (hflag : lookupFlag config flagKey = some flag)
    (hrules : flag.rules = some rules)
    (i : Nat) (hi : i < rules.length)
    (hmatch : (evaluateRule (rules.get ⟨i, hi⟩) context flagKey).matched = true)
    (hmin : ∀ (j : Nat) (hj : j < rules.length), j < i →
      (evaluateRule (rules.get ⟨j, hj⟩) context flagKey).matched = false) :
    ruleIndexOf (evalBool config flagKey context) = some i ∧
    ruleIndexOf (evalVariant config flagKey context) = some i ∧
    findFirstMatch rules context flagKey =
      findFirstMatch (rules.take (i + 1)) context flagKey := by
  have hfind := findFirstMatch_of_first rules context flagKey i hi hmatch hmin
  have hfind' : findFirstMatch (flag.rules.getD []) context flagKey =
      some (i, rules.get ⟨i, hi⟩, evaluateRule (rules.get ⟨i, hi⟩) context flagKey) := by
    rw [hrules]
    exact hfind
  refine ⟨?_, ?_, ?_⟩
  · rw [evalBool_eq_of_findFirstMatch config flagKey context flag i _ _ hflag hfind']
    rfl
  · rw [evalVariant_eq_of_findFirstMatch config flagKey context flag i _ _ hflag hfind']
    rfl
  · rw [hfind, findFirstMatch_take_of_some rules context flagKey _ (i + 1) hfind
      (Nat.lt_succ_self i)]

/-- Closed witness for C3: with rule 0 failing its conditions and rule 1
matching unconditionally, the reported rule index is 1. -/
theorem C3_witness :
    ruleIndexOf (evalBool
      [("f", ⟨"f", .bool false,
        some [⟨some [⟨"plan", "eq", .str "premium"⟩], none, .bool true, none⟩,
              ⟨none, none, .bool true, none⟩]⟩)]
      "f" ⟨none, [("plan", .str "free")]⟩) = some 1 :=
  (C3_first_match_wins
    [("f", ⟨"f", .bool false,
      some [⟨some [⟨"plan", "eq", .str "premium"⟩], none, .bool true, none⟩,
            ⟨none, none, .bool true, none⟩]⟩)]
    "f" ⟨none, [("plan", .str "free")]⟩
    ⟨"f", .bool false,
      some [⟨some [⟨"plan", "eq", .str "premium"⟩], none, .bool true, none⟩,
            ⟨none, none, .bool true, none⟩]⟩
    [⟨some [⟨"plan", "eq", .str "premium"⟩], none, .bool true, none⟩,
     ⟨none, none, .bool true, none⟩]
    rfl rfl 1 (by decide) (by decide)
    (fun j hj hji => by
      cases j with
      | zero =>
        show (evaluateRule
          ⟨some [⟨"plan", "eq", .str "premium"⟩], none, .bool true, none⟩
          ⟨none, [("plan", .str "free")]⟩ "f").matched = false
        decide
      | succ n => omega)).1

/-- C8 counterexample: the claim as stated is false on the code.  The
first (and matching) rule's `variant` is present — it is `some ""` —
so the claim demands the returned value `""`; the code instead returns
the stringified default `"false"`, because `rule.variant || ...` tests
truthiness and the empty string is falsy. -/
theorem C8_counterexample :
    (Rule.mk none none .undef (some "")).variant = some "" ∧
    evalVariant [("f", ⟨"f", .bool false, some [⟨none, none, .undef, some ""⟩]⟩)]
      "f" ⟨none, []⟩ =
      ⟨"false", .rule_match, some ⟨some 0, none, none⟩⟩ :=
  ⟨rfl, by decide⟩

/-- C8 (amended): for a flag present in the configuration, when the rule
loop finds its first match at index `i`, `evalVariant` returns the
rule's variant when it is present *and non-empty* (the code tests the
truthiness of `rule.variant`), else the flag's default value
stringified, together with that rule's reason and `ruleIndex = i`; when
no rule matches it returns the stringified default with reason
`default`. -/
theorem C8_evalVariant_value (config : FlagConfig) (flagKey : String)
    (context : Context) (flag : Flag)
    (hflag : lookupFlag config flagKey = some flag) :
    (∀ (i : Nat) (rule : Rule) (rr : RuleMatchResult),
      findFirstMatch (flag.rules.getD []) context flagKey = some (i, rule, rr) →
      evalVariant config flagKey context =
        ⟨match rule.variant with
          | some v => if v = "" then jsToString flag.defaultValue else v
          | none => jsToString flag.defaultValue,
          rr.reason, some ⟨some i, rr.bucket, none⟩⟩) ∧
    (findFirstMatch (flag.rules.getD []) context flagKey = none →
      evalVariant config flagKey context =
        ⟨jsToString flag.defaultValue, .default, none⟩) := by
  constructor
  · intro i rule rr hfind
    rw [evalVariant_eq_of_findFirstMatch config flagKey context flag i rule rr hflag hfind]
    rfl
  · intro hfind
    exact evalVariant_default_of_no_match config flagKey context flag hflag hfind

/-- Closed witness for C8: a matching rule with non-empty variant
`"variant-a"` is returned as the value. -/
theorem C8_witness :
    evalVariant
      [("v", ⟨"v", .str "control", some [⟨none, none, .undef, some "variant-a"⟩]⟩)]
      "v" ⟨none, [("country", .str "UK")]⟩ =
      ⟨"variant-a", .rule_match, some ⟨some 0, none, none⟩⟩ :=
  (C8_evalVariant_value
    [("v", ⟨"v", .str "control", some [⟨none, none, .undef, some "variant-a"⟩]⟩)]
    "v" ⟨none, [("country", .str "UK")]⟩
    ⟨"v", .str "control", some [⟨none, none, .undef, some "variant-a"⟩]⟩ rfl).1
    0 ⟨none, none, .undef, some "variant-a"⟩ ⟨true, .rule_match, none⟩ rfl

/-- On a `null` coercion of either side, the numeric comparison blocks
fail to match. -/
theorem numericCompare_none (cmp : Int → Int → Bool) (a v : Value)
    (h : toNumber a = none ∨ toNumber v = none) :
    numericCompare cmp a v = false := by
  unfold numericCompare
  rcases h with h | h
  · rw [h]
  · rcases htn : toNumber a with _ | n
    · rfl
    · rw [h]

/-- `evalBool` only reports `flag_not_found` for an absent flag key. -/
theorem evalBool_not_found_reason (config : FlagConfig) (flagKey : String)
    (context : Context)
    (h : (evalBool config flagKey context).reason = .flag_not_found) :
    lookupFlag config flagKey = none := by
  rcases hlf : lookupFlag config flagKey with _ | flag
  · rfl
  exfalso
  rcases hff : findFirstMatch (flag.rules.getD []) context flagKey with _ | ⟨i, rule, rr⟩
  · rw [evalBool_default_of_no_match config flagKey context flag hlf hff] at h
    simp at h
  · rw [evalBool_eq_of_findFirstMatch config flagKey context flag i rule rr hlf hff] at h
    obtain ⟨her, hm⟩ := findFirstMatch_matched _ context flagKey i rule rr hff
    have hr := evaluateRule_matched_reason rule context flagKey (her ▸ hm)
    rw [her] at hr
    simp at h
    rcases hr with hr | hr <;> simp_all

/-- `evalVariant` only reports `flag_not_found` for an absent flag key. -/
theorem evalVariant_not_found_reason (config : FlagConfig) (flagKey : String)
    (context : Context)
    (h : (evalVariant config flagKey context).reason = .flag_not_found) :
    lookupFlag config flagKey = none := by
  rcases hlf : lookupFlag config flagKey with _ | flag
  · rfl
  exfalso
  rcases hff : findFirstMatch (flag.rules.getD []) context flagKey with _ | ⟨i, rule, rr⟩
  · rw [evalVariant_default_of_no_match config flagKey context flag hlf hff] at h
    simp at h
  · rw [evalVariant_eq_of_findFirstMatch config flagKey context flag i rule rr hlf hff] at h
    obtain ⟨her, hm⟩ := findFirstMatch_matched _ context flagKey i rule rr hff
    have hr := evaluateRule_matched_reason rule context flagKey (her ▸ hm)
    rw [her] at hr
    simp at h
    rcases hr with hr | hr <;> simp_all

/-- C9: evaluation is total and never throws.  Both entry points are
total functions into `EvaluationResult` (inherent to the embedding:
they are Lean functions), failure is reported through `reason` plus the
`metadata.error` string, and every malformed-input class the spec
names resolves to "no match" rather than an error: a missing flag
yields a result carrying an error message; an `in` with a non-list
operand, a `contains` on a non-string/non-list attribute value, a
numeric comparison with an unparsable operand, and any unrecognized
operator all evaluate to `false`. -/
theorem C9_never_throws (config : FlagConfig) (flagKey : String)
    (context : Context) (condition : Condition) :
    ((evalBool config flagKey context).reason = .flag_not_found →
      ∃ m, (evalBool config flagKey context).metadata = some m ∧
        m.error.isSome = true) ∧
    ((evalVariant config flagKey context).reason = .flag_not_found →
      ∃ m, (evalVariant config flagKey context).metadata = some m ∧
        m.error.isSome = true) ∧
    (condition.operator = "in" → (condition.value matches .arr _) = false →
      evaluateCondition condition context = false) ∧
    (condition.operator = "contains" →
      (getAttributeValue context condition.attr matches .str _) = false →
      (getAttributeValue context condition.attr matches .arr _) = false →
      evaluateCondition condition context = false) ∧
    (condition.operator ∈ ["gt", "gte", "lt", "lte"] →
      (toNumber (getAttributeValue context condition.attr) = none ∨
        toNumber condition.value = none) →
      evaluateCondition condition context = false) ∧
    (condition.operator ∉ ["eq", "neq", "in", "gt", "gte", "lt", "lte", "contains"] →
      evaluateCondition condition context = false) := by
  refine ⟨?_, ?_, ?_, ?_, ?_, ?_⟩
  · intro h
    have hlf := evalBool_not_found_reason config flagKey context h
    refine ⟨⟨none, none,
      some ("Flag \"" ++ flagKey ++ "\" not found in configuration")⟩, ?_, rfl⟩
    simp [evalBool, hlf]
  · intro h
    have hlf := evalVariant_not_found_reason config flagKey context h
    refine ⟨⟨none, none,
      some ("Flag \"" ++ flagKey ++ "\" not found in configuration")⟩, ?_, rfl⟩
    simp [evalVariant, hlf]
  · intro hop harr
    unfold evaluateCondition
    dsimp only
    rw [hop]
    rw [if_neg (show ¬("in" = "neq") from by decide)]
    rw [if_neg (show ¬("in" = "eq") from by decide)]
    rw [if_neg (show ¬("in" = "neq") from by decide)]
    rw [if_pos rfl]
    rcases hcv : condition.value with _ | _ | b | n | s | elems | fields
    · split <;> rfl
    · split <;> rfl
    · split <;> rfl
    · split <;> rfl
    · split <;> rfl
    · rw [hcv] at harr
      simp at harr
    · split <;> rfl
  · intro hop hs ha
    unfold evaluateCondition
    dsimp only
    rw [hop]
    rw [if_neg (show ¬("contains" = "neq") from by decide)]
    rw [if_neg (show ¬("contains" = "eq") from by decide)]
    rw [if_neg (show ¬("contains" = "neq") from by decide)]
    rw [if_neg (show ¬("contains" = "in") from by decide)]
    rw [if_neg (show ¬("contains" = "gt") from by decide)]
    rw [if_neg (show ¬("contains" = "gte") from by decide)]
    rw [if_neg (show ¬("contains" = "lt") from by decide)]
    rw [if_neg (show ¬("contains" = "lte") from by decide)]
    rw [if_pos rfl]
    rcases hav : getAttributeValue context condition.attr with
      _ | _ | b | n | s | elems | fields
    · split <;> rfl
    · split <;> rfl
    · split <;> rfl
    · split <;> rfl
    · rw [hav] at hs
      simp at hs
    · rw [hav] at ha
      simp at ha
    · split <;> rfl
  · intro hop hnone
    simp only [List.mem_cons, List.not_mem_nil, or_false] at hop
    rcases hop with hop | hop | hop | hop
    · unfold evaluateCondition
      dsimp only
      rw [hop]
      rw [if_neg (show ¬("gt" = "neq") from by decide)]
      rw [if_neg (show ¬("gt" = "eq") from by decide)]
      rw [if_neg (show ¬("gt" = "neq") from by decide)]
      rw [if_neg (show ¬("gt" = "in") from by decide)]
      rw [if_pos rfl]
      split
      · rfl
      · exact numericCompare_none _ _ _ hnone
    · unfold evaluateCondition
      dsimp only
      rw [hop]
      rw [if_neg (show ¬("gte" = "neq") from by decide)]
      rw [if_neg (show ¬("gte" = "eq") from by decide)]
      rw [if_neg (show ¬("gte" = "neq") from by decide)]
      rw [if_neg (show ¬("gte" = "in") from by decide)]
      rw [if_neg (show ¬("gte" = "gt") from by decide)]
      rw [if_pos rfl]
      split
      · rfl
      · exact numericCompare_none _ _ _ hnone
    · unfold evaluateCondition
      dsimp only
      rw [hop]
      rw [if_neg (show ¬("lt" = "neq") from by decide)]
      rw [if_neg (show ¬("lt" = "eq") from by decide)]
      rw [if_neg (show ¬("lt" = "neq") from by decide)]
      rw [if_neg (show ¬("lt" = "in") from by decide)]
      rw [if_neg (show ¬("lt" = "gt") from by decide)]
      rw [if_neg (show ¬("lt" = "gte") from by decide)]
      rw [if_pos rfl]
      split
      · rfl
      · exact numericCompare_none _ _ _ hnone
    · unfold evaluateCondition
      dsimp only
      rw [hop]
      rw [if_neg (show ¬("lte" = "neq") from by decide)]
      rw [if_neg (show ¬("lte" = "eq") from by decide)]
      rw [if_neg (show ¬("lte" = "neq") from by decide)]
      rw [if_neg (show ¬("lte" = "in") from by decide)]
      rw [if_neg (show ¬("lte" = "gt") from by decide)]
      rw [if_neg (show ¬("lte" = "gte") from by decide)]
      rw [if_neg (show ¬("lte" = "lt") from by decide)]
      rw [if_pos rfl]
      split
      · rfl
      · exact numericCompare_none _ _ _ hnone
  · intro hop
    simp only [List.mem_cons, List.not_mem_nil, or_false, not_or] at hop
    obtain ⟨h1, h2, h3, h4, h5, h6, h7, h8⟩ := hop
    unfold evaluateCondition
    dsimp only
    rw [if_neg h2, if_neg h1, if_neg h2, if_neg h3, if_neg h4, if_neg h5, if_neg h6,
      if_neg h7, if_neg h8]
    split <;> rfl

/-- Closed witness for C9: the failure classes at concrete inputs. -/
theorem C9_witness :
    evaluateCondition ⟨"country", "in", .str "US"⟩ ⟨none, [("country", .str "US")]⟩ =
      false ∧
    evaluateCondition ⟨"value", "gt", .num 10⟩
      ⟨none, [("value", .str "not-a-number")]⟩ = false ∧
    evaluateCondition ⟨"x", "regex", .str "y"⟩ ⟨none, [("x", .str "y")]⟩ = false := by
  refine ⟨?_, ?_, ?_⟩
  · exact (C9_never_throws [] "" ⟨none, [("country", .str "US")]⟩
      ⟨"country", "in", .str "US"⟩).2.2.1 rfl (by decide)
  · exact (C9_never_throws [] "" ⟨none, [("value", .str "not-a-number")]⟩
      ⟨"value", "gt", .num 10⟩).2.2.2.2.1 (by decide) (Or.inl rfl)
  · exact (C9_never_throws [] "" ⟨none, [("x", .str "y")]⟩
      ⟨"x", "regex", .str "y"⟩).2.2.2.2.2 (by decide)

/-- C10: the only reasons either entry point ever returns are `default`,
`rule_match`, `rollout` and `flag_not_found` — `rollout_excluded` and
`error` never reach the caller, because a rule excluded by its
conditions or by the rollout check only causes fall-through; and when
no rule matches the caller gets the flag's default value with reason
`default` and no metadata (no bucket, no rule index), even when a
bucket was computed and the user excluded by it. -/
theorem C10_observable_reasons (config : FlagConfig) (flagKey : String)
    (context : Context) :
    ((evalBool config flagKey context).reason = .default ∨
      (evalBool config flagKey context).reason = .rule_match ∨
      (evalBool config flagKey context).reason = .rollout ∨
      (evalBool config flagKey context).reason = .flag_not_found) ∧
    ((evalVariant config flagKey context).reason = .default ∨
      (evalVariant config flagKey context).reason = .rule_match ∨
      (evalVariant config flagKey context).reason = .rollout ∨
      (evalVariant config flagKey context).reason = .flag_not_found) ∧
    ((evalBool config flagKey context).reason = .default →
      (evalBool config flagKey context).metadata = none) ∧
    ((evalVariant config flagKey context).reason = .default →
      (evalVariant config flagKey context).metadata = none) ∧
    (∀ flag, lookupFlag config flagKey = some flag →
      findFirstMatch (flag.rules.getD []) context flagKey = none →
      evalBool config flagKey context =
        ⟨jsTruthy flag.defaultValue, .default, none⟩ ∧
      evalVariant config flagKey context =
        ⟨jsToString flag.defaultValue, .default, none⟩) := by
  rcases hlf : lookupFlag config flagKey with _ | flag
  · refine ⟨Or.inr (Or.inr (Or.inr ?_)), Or.inr (Or.inr (Or.inr ?_)), ?_, ?_, ?_⟩
    · simp [evalBool, hlf]
    · simp [evalVariant, hlf]
    · intro h
      simp [evalBool, hlf] at h
    · intro h
      simp [evalVariant, hlf] at h
    · intro flag hflag
      exact absurd hflag (by simp)
  · rcases hff : findFirstMatch (flag.rules.getD []) context flagKey with _ | ⟨i, rule, rr⟩
    · have hb := evalBool_default_of_no_match config flagKey context flag hlf hff
      have hv := evalVariant_default_of_no_match config flagKey context flag hlf hff
      refine ⟨Or.inl ?_, Or.inl ?_, ?_, ?_, ?_⟩
      · rw [hb]
      · rw [hv]
      · intro _
        rw [hb]
      · intro _
        rw [hv]
      · intro flag' hflag' hff'
        have hf : flag = flag' := Option.some.inj hflag'
        subst hf
        exact ⟨hb, hv⟩
    · have hb := evalBool_eq_of_findFirstMatch config flagKey context flag i rule rr hlf hff
      have hv := evalVariant_eq_of_findFirstMatch config flagKey context flag i rule rr hlf hff
      obtain ⟨her, hm⟩ := findFirstMatch_matched _ context flagKey i rule rr hff
      have hr := evaluateRule_matched_reason rule context flagKey (her ▸ hm)
      rw [her] at hr
      refine ⟨?_, ?_, ?_, ?_, ?_⟩
      · rw [hb]
        rcases hr with h | h <;> simp [h]
      · rw [hv]
        rcases hr with h | h <;> simp [h]
      · rw [hb]
        intro h
        rcases hr with h' | h' <;> simp_all
      · rw [hv]
        intro h
        rcases hr with h' | h' <;> simp_all
      · intro flag' hflag' hff'
        have hf : flag = flag' := Option.some.inj hflag'
        subst hf
        rw [hff'] at hff
        exact absurd hff (by simp)

/-- Closed witness for C10: a 50 % rollout that excludes `user-123`
(bucket 51) falls through to the default: reason `default`, no
metadata, even though a bucket was computed during the attempt. -/
theorem C10_witness :
    evalBool [("test-flag", ⟨"test-flag", .bool false,
        some [⟨none, some 50, .bool true, none⟩]⟩)]
      "test-flag" ⟨some "user-123", []⟩ = ⟨false, .default, none⟩ ∧
    evalVariant [("test-flag", ⟨"test-flag", .bool false,
        some [⟨none, some 50, .bool true, none⟩]⟩)]
      "test-flag" ⟨some "user-123", []⟩ = ⟨"false", .default, none⟩ :=
  (C10_observable_reasons
    [("test-flag", ⟨"test-flag", .bool false,
      some [⟨none, some 50, .bool true, none⟩]⟩)]
    "test-flag" ⟨some "user-123", []⟩).2.2.2.2
    ⟨"test-flag", .bool false, some [⟨none, some 50, .bool true, none⟩]⟩ rfl rfl

end Togglekit
